import Mathlib

/-
Shallow embedding of the moon7-result TypeScript library.

The embedded code is the library's current source tree:
  src/result.ts  (Success/Failure discriminated by field presence, with the
                  defensive structural guards `r != null && typeof r === "object"
                  && "value" in r`), src/async.ts (isPending / isResult /
                  isAsyncResult), src/error.ts (must / strictMust).

JavaScript runtime values are modelled by the inductive `JSValue`; numbers are
modelled as integers (the embedded code never does arithmetic on them), plain
objects as association lists of named fields, and functions as an opaque
constructor (the embedded checks only ever inspect `typeof` on functions).
Operations that can raise a TypeError in JavaScript (the `in` operator on a
primitive) are given an `Except`-valued embedding alongside the total Boolean
one, so that totality claims about the guards are meaningful statements.
-/

namespace MoonResult

inductive JSValue where
  | null
  | undefined
  | bool (b : Bool)
  | num (n : Int)
  | str (s : String)
  | arr (elems : List JSValue)
  | obj (fields : List (String × JSValue))
  | func

open JSValue

/-- JavaScript `typeof` on the modelled values; note `typeof null` is
the string "object", as in JavaScript. -/
def typeof : JSValue → String
  | .null => "object"
  | .undefined => "undefined"
  | .bool _ => "boolean"
  | .num _ => "number"
  | .str _ => "string"
  | .arr _ => "object"
  | .obj _ => "object"
  | .func => "function"

/-- JavaScript loose equality against null: `v == null` holds exactly for
null and undefined. The source's `value != null` is the negation. -/
def looseEqNull : JSValue → Bool
  | .null => true
  | .undefined => true
  | _ => false

/-- JavaScript strict equality `v === s` against a string literal `s`. -/
def isStr (v : JSValue) (s : String) : Bool :=
  match v with
  | .str t => t == s
  | _ => false

/-- The JavaScript `in` operator, total version: key presence on plain
objects; arrays expose their index keys and "length"; on every other value
it yields false. Only applied by the embedded code under a
`typeof v === "object"` guard, where it agrees with `hasFieldE`. -/
def hasField : JSValue → String → Bool
  | .obj fields, key => fields.any (fun p => p.1 == key)
  | .arr xs, key => key == "length" || (List.range xs.length).any (fun i => toString i == key)
  | _, _ => false

/-- The JavaScript `in` operator with its failure mode: applied to a
primitive (null, undefined, boolean, number, string) it raises a TypeError.
Functions are objects in JavaScript, so `in` succeeds on them; we model
functions without own properties. -/
def hasFieldE : JSValue → String → Except String Bool
  | .obj fields, key => .ok (fields.any (fun p => p.1 == key))
  | .arr xs, key => .ok (key == "length" || (List.range xs.length).any (fun i => toString i == key))
  | .func, _ => .ok false
  | _, _ => .error "TypeError"

/-- JavaScript property read `v[key]` on a plain object: the field's value
when present, otherwise undefined. The embedded code only reads properties
of values it has already guarded to be objects. -/
def getField : JSValue → String → JSValue
  | .obj fields, key => ((fields.find? (fun p => p.1 == key)).map (fun p => p.2)).getD .undefined
  | _, _ => .undefined

/-- src/result.ts: `success(value)` builds `{ value }`. -/
def success (value : JSValue) : JSValue :=
  .obj [("value", value)]

/-- src/result.ts: `failure(error)` builds `{ error }`. -/
def failure (error : JSValue) : JSValue :=
  .obj [("error", error)]

/-- src/async.ts: the shared `pending` singleton `{ status: "pending" }`. -/
def pending : JSValue :=
  .obj [("status", .str "pending")]

/-- src/result.ts: `isSuccess(result)` is
`result != null && typeof result === "object" && "value" in result`. -/
def isSuccess (result : JSValue) : Bool :=
  !looseEqNull result && typeof result == "object" && hasField result "value"

/-- src/result.ts: `isFailure(result)` is
`result != null && typeof result === "object" && "error" in result`. -/
def isFailure (result : JSValue) : Bool :=
  !looseEqNull result && typeof result == "object" && hasField result "error"

/-- `isSuccess` with the `in` operator's failure mode tracked: the guards
are evaluated left to right with short-circuiting, exactly as in the source. -/
def isSuccessE (result : JSValue) : Except String Bool :=
  if looseEqNull result then .ok false
  else if !(typeof result == "object") then .ok false
  else hasFieldE result "value"

/-- `isFailure` with the `in` operator's failure mode tracked. -/
def isFailureE (result : JSValue) : Except String Bool :=
  if looseEqNull result then .ok false
  else if !(typeof result == "object") then .ok false
  else hasFieldE result "error"

/-- src/async.ts: `isPending(result)` is
`result != null && typeof result === "object" && "status" in result &&
result.status === "pending"`. -/
def isPending (result : JSValue) : Bool :=
  !looseEqNull result && typeof result == "object" && hasField result "status"
    && isStr (getField result "status") "pending"

/-- `isPending` with the `in` operator's failure mode tracked. -/
def isPendingE (result : JSValue) : Except String Bool :=
  if looseEqNull result then .ok false
  else if !(typeof result == "object") then .ok false
  else match hasFieldE result "status" with
    | .error e => .error e
    | .ok b => .ok (b && isStr (getField result "status") "pending")

/-- src/async.ts: `isResult(result)` is `isSuccess(result) || isFailure(result)`. -/
def isResult (result : JSValue) : Bool :=
  isSuccess result || isFailure result

/-- `isResult` with failure modes tracked; `||` short-circuits. -/
def isResultE (result : JSValue) : Except String Bool :=
  match isSuccessE result with
  | .error e => .error e
  | .ok b => if b then .ok true else isFailureE result

/-- src/async.ts: `isAsyncResult(result)` is `isPending(result) || isResult(result)`. -/
def isAsyncResult (result : JSValue) : Bool :=
  isPending result || isResult result

/-- `isAsyncResult` with failure modes tracked; `||` short-circuits. -/
def isAsyncResultE (result : JSValue) : Except String Bool :=
  match isPendingE result with
  | .error e => .error e
  | .ok b => if b then .ok true else isResultE result

/-- src/result.ts: `unwrap(result)` returns `result.value` when `isSuccess`,
otherwise performs `throw result.error`; a raise is modelled as the
`Except.error` carrying the raised value itself. -/
def unwrap (result : JSValue) : Except JSValue JSValue :=
  if isSuccess result then .ok (getField result "value")
  else .error (getField result "error")

/-- src/result.ts: `map(result, fn)` is
`isSuccess(result) ? success(fn(result.value)) : result`. -/
def map (result : JSValue) (fn : JSValue → JSValue) : JSValue :=
  if isSuccess result then success (fn (getField result "value")) else result

/-- `map` instrumented with the number of times `fn` is invoked: the source
has a single call site of `fn`, reached only in the success branch. -/
def mapCalls (result : JSValue) (fn : JSValue → JSValue) : JSValue × Nat :=
  if isSuccess result then (success (fn (getField result "value")), 1) else (result, 0)

/-- Loop of src/result.ts `all`: `values` is the accumulator array that the
source pushes unwrapped values onto; on the first element failing `isSuccess`
the element itself is returned. -/
def allAux : List JSValue → List JSValue → JSValue
  | [], values => success (.arr values)
  | item :: rest, values =>
      if isSuccess item then allAux rest (values ++ [getField item "value"])
      else item

/-- src/result.ts: `all(many)` starts the loop with an empty `values` array. -/
def all (many : List JSValue) : JSValue :=
  allAux many []

/-- Loop of src/result.ts `any`: `errors` is the accumulator array of
collected error values; the first element passing `isSuccess` is returned
itself. -/
def anyAux : List JSValue → List JSValue → JSValue
  | [], errors => failure (.arr errors)
  | item :: rest, errors =>
      if isSuccess item then item
      else anyAux rest (errors ++ [getField item "error"])

/-- src/result.ts: `any(many)` starts the loop with an empty `errors` array. -/
def any (many : List JSValue) : JSValue :=
  anyAux many []

/-- src/result.ts: `liftOutcome(cb)` returns the Node-style callback
`(error, result) => error != null ? cb(failure(error)) : cb(success(result))`. -/
def liftOutcome {α : Type} (cb : JSValue → α) (error result : JSValue) : α :=
  if !looseEqNull error then cb (failure error) else cb (success result)

/-- Observable behaviour of a caller-supplied Node-style `fn`: it either
raises synchronously before ever invoking its callback, or it invokes the
callback once with a pair (error, value). -/
inductive NodeFnBehavior where
  | throws (err : JSValue)
  | calls (error : JSValue) (value : JSValue)

/-- Settled state of a JavaScript promise. -/
inductive PromiseOutcome where
  | resolved (v : JSValue)
  | rejected (e : JSValue)

/-- src/result.ts: `fromNodeCallback(fn)` is
`new Promise(resolve => fn(liftOutcome(result => resolve(result))))`.
When `fn` invokes the adapted callback, the promise settles with the value
passed to `resolve`. The source wraps `fn` in no try/catch, so when `fn`
raises synchronously before `resolve` is called, the ECMAScript Promise
constructor rejects the promise with the raised value. -/
def fromNodeCallback (fn : NodeFnBehavior) : PromiseOutcome :=
  match fn with
  | .calls error value => liftOutcome (fun r => PromiseOutcome.resolved r) error value
  | .throws err => PromiseOutcome.rejected err

/-- src/error.ts: `must(value, errorMessage)` performs
`if (value == null) throw new Error(errorMessage); return value;`.
The thrown Error is modelled by its message; the source's default message
is "Value is undefined or null". -/
def must (value : JSValue) (errorMessage : String) : Except String JSValue :=
  if looseEqNull value then .error errorMessage else .ok value

/-- src/error.ts: `strictMust(value, errorMessage)` performs
`if (value === undefined) throw new Error(errorMessage); return value;`.
The source's default message is "Value is undefined". -/
def strictMust (value : JSValue) (errorMessage : String) : Except String JSValue :=
  match value with
  | .undefined => .error errorMessage
  | v => .ok v

lemma isSuccess_success (v : JSValue) : isSuccess (success v) = true := rfl

lemma isSuccess_failure (e : JSValue) : isSuccess (failure e) = false := rfl

lemma isFailure_success (v : JSValue) : isFailure (success v) = false := rfl

lemma isFailure_failure (e : JSValue) : isFailure (failure e) = true := rfl

lemma getField_success (v : JSValue) : getField (success v) "value" = v := rfl

lemma getField_failure (e : JSValue) : getField (failure e) "error" = e := rfl

lemma isSuccessE_eq (v : JSValue) : isSuccessE v = Except.ok (isSuccess v) := by
  cases v <;> rfl

lemma isFailureE_eq (v : JSValue) : isFailureE v = Except.ok (isFailure v) := by
  cases v <;> rfl

lemma isPendingE_eq (v : JSValue) : isPendingE v = Except.ok (isPending v) := by
  cases v <;> rfl

lemma isResultE_eq (v : JSValue) : isResultE v = Except.ok (isResult v) := by
  unfold isResultE isResult
  rw [isSuccessE_eq, isFailureE_eq]
  cases isSuccess v <;> simp

lemma isAsyncResultE_eq (v : JSValue) : isAsyncResultE v = Except.ok (isAsyncResult v) := by
  unfold isAsyncResultE isAsyncResult
  rw [isPendingE_eq, isResultE_eq]
  cases isPending v <;> simp

lemma allAux_success_list (l : List JSValue) :
    ∀ acc : List JSValue, (∀ x ∈ l, ∃ v, x = success v) →
      allAux l acc = success (.arr (acc ++ l.map (fun x => getField x "value"))) := by
  induction l with
  | nil => intro acc _; simp [allAux]
  | cons x rest ih =>
      intro acc h
      obtain ⟨v, hv⟩ := h x (List.mem_cons_self x rest)
      subst hv
      rw [allAux]
      simp only [isSuccess_success, if_true, getField_success, List.map_cons]
      rw [ih (acc ++ [v]) (fun y hy => h y (List.mem_cons_of_mem _ hy))]
      simp

lemma allAux_first_failure (l₁ : List JSValue) (e : JSValue) (l₂ : List JSValue) :
    ∀ acc : List JSValue, (∀ x ∈ l₁, ∃ v, x = success v) →
      allAux (l₁ ++ failure e :: l₂) acc = failure e := by
  induction l₁ with
  | nil =>
      intro acc _
      rw [List.nil_append, allAux]
      simp [isSuccess_failure]
  | cons x rest ih =>
      intro acc h
      obtain ⟨v, hv⟩ := h x (List.mem_cons_self x rest)
      subst hv
      rw [List.cons_append, allAux]
      simp only [isSuccess_success, if_true]
      exact ih _ (fun y hy => h y (List.mem_cons_of_mem _ hy))

lemma anyAux_failure_list (l : List JSValue) :
    ∀ acc : List JSValue, (∀ x ∈ l, ∃ e, x = failure e) →
      anyAux l acc = failure (.arr (acc ++ l.map (fun x => getField x "error"))) := by
  induction l with
  | nil => intro acc _; simp [anyAux]
  | cons x rest ih =>
      intro acc h
      obtain ⟨e, he⟩ := h x (List.mem_cons_self x rest)
      subst he
      rw [anyAux]
      simp only [isSuccess_failure, if_false, getField_failure, List.map_cons]
      rw [ih (acc ++ [e]) (fun y hy => h y (List.mem_cons_of_mem _ hy))]
      simp

lemma anyAux_first_success (l₁ : List JSValue) (v : JSValue) (l₂ : List JSValue) :
    ∀ acc : List JSValue, (∀ x ∈ l₁, ∃ e, x = failure e) →
      anyAux (l₁ ++ success v :: l₂) acc = success v := by
  induction l₁ with
  | nil =>
      intro acc _
      rw [List.nil_append, anyAux]
      simp [isSuccess_success]
  | cons x rest ih =>
      intro acc h
      obtain ⟨e, he⟩ := h x (List.mem_cons_self x rest)
      subst he
      rw [List.cons_append, anyAux]
      simp only [isSuccess_failure, if_false]
      exact ih _ (fun y hy => h y (List.mem_cons_of_mem _ hy))

/-- Claim C1: the callback that fromNodeCallback hands to the caller-supplied
fn resolves the returned promise to Failure(error) when error is non-null in
the loose sense (so falsy but non-null errors such as 0, "" or false still
select the failure branch), and to Success(value) when error is null or
undefined. -/
theorem fromNodeCallback_error_dispatch (e v : JSValue) :
    (looseEqNull e = false →
      fromNodeCallback (.calls e v) = PromiseOutcome.resolved (failure e))
    ∧ (looseEqNull e = true →
      fromNodeCallback (.calls e v) = PromiseOutcome.resolved (success v)) := by
  constructor <;> intro h <;> simp [fromNodeCallback, liftOutcome, h]

/-- Claim C1 witness: invoking the callback with the falsy but non-null error 0
resolves to Failure(0); invoking it with a null error resolves to Success(7). -/
theorem fromNodeCallback_error_dispatch_witness :
    fromNodeCallback (.calls (.num 0) (.str "v"))
      = PromiseOutcome.resolved (failure (.num 0))
    ∧ fromNodeCallback (.calls .null (.num 7))
      = PromiseOutcome.resolved (success (.num 7)) :=
  ⟨(fromNodeCallback_error_dispatch (.num 0) (.str "v")).1 rfl,
   (fromNodeCallback_error_dispatch .null (.num 7)).2 rfl⟩

/-- Claim C2: isAsyncResult (and the isResult it delegates to) is total on
arbitrary input — its guard-tracking embedding never raises and agrees with
the total Boolean classification — and it accepts exactly the values accepted
by isPending or by isResult, rejecting everything else. -/
theorem isAsyncResult_total (v : JSValue) :
    isAsyncResultE v = Except.ok (isAsyncResult v)
    ∧ isResultE v = Except.ok (isResult v)
    ∧ (isAsyncResult v = true ↔ (isPending v = true ∨ isResult v = true)) :=
  ⟨isAsyncResultE_eq v, isResultE_eq v, by simp [isAsyncResult]⟩

/-- Claim C3 counterexample: a caller-supplied fn that raises synchronously
before ever invoking its callback makes the promise returned by
fromNodeCallback reject with the raised value, not resolve. -/
theorem fromNodeCallback_sync_throw_rejects :
    fromNodeCallback (NodeFnBehavior.throws (JSValue.str "boom"))
      = PromiseOutcome.rejected (JSValue.str "boom") := rfl

/-- Claim C3 amended: when fn invokes its callback with any pair
(error, value), the promise resolves to the corresponding Result and never
rejects on that path; but when fn raises synchronously before invoking the
callback, the promise rejects with the raised value (ECMAScript Promise
executor semantics, as the source wraps fn in no try/catch). -/
theorem fromNodeCallback_resolution_amended (e v err : JSValue) :
    fromNodeCallback (.calls e v)
      = PromiseOutcome.resolved (if looseEqNull e then success v else failure e)
    ∧ fromNodeCallback (.throws err) = PromiseOutcome.rejected err := by
  refine ⟨?_, rfl⟩
  cases h : looseEqNull e <;> simp [fromNodeCallback, liftOutcome, h]

/-- Claim C4: on a list of Results, all returns the first Failure element
itself as soon as one is encountered (elements after it are irrelevant), and
when every element is a Success it returns one Success wrapping the list of
unwrapped values, in input order and of the input's length. -/
theorem all_spec :
    (∀ l : List JSValue, (∀ x ∈ l, ∃ v, x = success v) →
      all l = success (.arr (l.map (fun x => getField x "value")))
        ∧ (l.map (fun x => getField x "value")).length = l.length)
    ∧ (∀ (l₁ : List JSValue) (e : JSValue) (l₂ : List JSValue),
      (∀ x ∈ l₁, ∃ v, x = success v) →
      all (l₁ ++ failure e :: l₂) = failure e) := by
  constructor
  · intro l h
    refine ⟨?_, by simp⟩
    simpa [all] using allAux_success_list l [] h
  · intro l₁ e l₂ h
    exact allAux_first_failure l₁ e l₂ [] h

/-- Claim C4 witness: all on two successes collects both values in order, and
all short-circuits on the failure in second position. -/
theorem all_spec_witness :
    all [success (.num 1), success (.num 2)] = success (.arr [.num 1, .num 2])
    ∧ all [success (.num 1), failure (.str "x"), success (.num 3)]
        = failure (.str "x") := by
  constructor
  · have h := (all_spec.1 [success (.num 1), success (.num 2)]
      (by intro x hx; simp at hx; rcases hx with h1 | h1 <;> exact ⟨_, h1⟩)).1
    simpa [getField_success] using h
  · exact all_spec.2 [success (.num 1)] (.str "x") [success (.num 3)]
      (by intro x hx; simp at hx; exact ⟨_, hx⟩)

/-- Claim C5: on a list of Results, any returns the first Success element
itself as soon as one is encountered (elements after it are irrelevant), and
when every element is a Failure it returns one Failure wrapping the list of
all errors, in input order and of the input's length. -/
theorem any_spec :
    (∀ l : List JSValue, (∀ x ∈ l, ∃ e, x = failure e) →
      any l = failure (.arr (l.map (fun x => getField x "error")))
        ∧ (l.map (fun x => getField x "error")).length = l.length)
    ∧ (∀ (l₁ : List JSValue) (v : JSValue) (l₂ : List JSValue),
      (∀ x ∈ l₁, ∃ e, x = failure e) →
      any (l₁ ++ success v :: l₂) = success v) := by
  constructor
  · intro l h
    refine ⟨?_, by simp⟩
    simpa [any] using anyAux_failure_list l [] h
  · intro l₁ v l₂ h
    exact anyAux_first_success l₁ v l₂ [] h

/-- Claim C5 witness: any on two failures collects both errors in order, and
any short-circuits on the success in second position. -/
theorem any_spec_witness :
    any [failure (.str "a"), failure (.str "b")]
      = failure (.arr [.str "a", .str "b"])
    ∧ any [failure (.str "a"), success (.num 2), failure (.str "c")]
        = success (.num 2) := by
  constructor
  · have h := (any_spec.1 [failure (.str "a"), failure (.str "b")]
      (by intro x hx; simp at hx; rcases hx with h1 | h1 <;> exact ⟨_, h1⟩)).1
    simpa [getField_failure] using h
  · exact any_spec.2 [failure (.str "a")] (.num 2) [failure (.str "c")]
      (by intro x hx; simp at hx; exact ⟨_, hx⟩)

/-- Claim C6: unwrap on a Success returns the wrapped value; unwrap on a
Failure raises with the contained error itself as the raised value, not
wrapped in any new error type. -/
theorem unwrap_spec (v e : JSValue) :
    unwrap (success v) = Except.ok v ∧ unwrap (failure e) = Except.error e := by
  constructor <;>
    simp [unwrap, isSuccess_success, isSuccess_failure, getField_success, getField_failure]

/-- Claim C7: map on a Success applies fn to the value and wraps the image in
a new Success; map on a Failure returns the original Failure unchanged for
every fn, and the instrumented count certifies fn is invoked zero times on
the failure path (and once on the success path). -/
theorem map_spec (v e r : JSValue) (fn : JSValue → JSValue) :
    map (success v) fn = success (fn v)
    ∧ map (failure e) fn = failure e
    ∧ mapCalls (success v) fn = (success (fn v), 1)
    ∧ mapCalls (failure e) fn = (failure e, 0)
    ∧ (mapCalls r fn).1 = map r fn := by
  refine ⟨?_, ?_, ?_, ?_, ?_⟩
  · simp [map, isSuccess_success, getField_success]
  · simp [map, isSuccess_failure]
  · simp [mapCalls, isSuccess_success, getField_success]
  · simp [mapCalls, isSuccess_failure]
  · cases h : isSuccess r <;> simp [map, mapCalls, h]

/-- Claim C8: on every value produced by the constructors, for any payload
(including null and undefined), isSuccess and isFailure are exhaustive and
mutually exclusive: exactly one of them returns true. -/
theorem partition_spec (v e : JSValue) :
    isSuccess (success v) = true ∧ isFailure (success v) = false
    ∧ isSuccess (failure e) = false ∧ isFailure (failure e) = true :=
  ⟨rfl, rfl, rfl, rfl⟩

/-- Claim C9: strictMust raises exactly on undefined and passes everything
else through unchanged (null included), while must raises exactly on null
and undefined; the two contracts differ exactly on the input null. -/
theorem must_strictMust_spec (v : JSValue) (msg : String) :
    (strictMust v msg = Except.error msg ↔ v = JSValue.undefined)
    ∧ (v ≠ JSValue.undefined → strictMust v msg = Except.ok v)
    ∧ (must v msg = Except.error msg ↔ (v = JSValue.null ∨ v = JSValue.undefined))
    ∧ (¬(v = JSValue.null ∨ v = JSValue.undefined) → must v msg = Except.ok v)
    ∧ (must v msg ≠ strictMust v msg ↔ v = JSValue.null) := by
  cases v <;> simp [must, strictMust, looseEqNull]

/-- Claim C9 witness: null passes through strictMust unchanged, and a plain
number passes through must unchanged. -/
theorem must_strictMust_spec_witness :
    strictMust JSValue.null "m" = Except.ok JSValue.null
    ∧ must (JSValue.num 5) "m" = Except.ok (JSValue.num 5) := by
  constructor
  · exact (must_strictMust_spec JSValue.null "m").2.1 (fun h => JSValue.noConfusion h)
  · exact (must_strictMust_spec (JSValue.num 5) "m").2.2.2.1 (by simp)

/-- Claim C10: on the empty list, all returns a Success wrapping the empty
list and any returns a Failure wrapping the empty list. -/
theorem all_any_empty :
    all [] = success (.arr []) ∧ any [] = failure (.arr []) :=
  ⟨rfl, rfl⟩

end MoonResult
